import Mathlib

/-!
Verification of the empyrical returns-metric engine (`src/empyrical/stats.py`)
against its natural-language specification.

Floating-point values are modelled as exact rationals (`ℚ`) where the source
only uses field arithmetic, and as reals (`ℝ`) where the source takes square
roots or fractional powers.  `NaN` is modelled as `Option.none`; a python
exception is modelled as `Except.error`.
-/

namespace Empyrical

/-! ## Annualization registry -/

/-- A raised `ValueError` from `annualization_factor`, carrying the offending
period label and the allowed labels named in the message
(stats.py lines 77-82). -/
structure PeriodError where
  period : String
  allowed : List String
deriving DecidableEq

/-- Modelled from the spec: `periods.ANNUALIZATION_FACTORS` is imported from
`empyrical/periods.py`, which is not under `src/`; the spec fixes the table as
daily 252, weekly 52, monthly 12, yearly 1. -/
def ANNUALIZATION_FACTORS : List (String × ℚ) :=
  [("daily", 252), ("weekly", 52), ("monthly", 12), ("yearly", 1)]

/-- stats.py lines 47-85: return the override unchanged when given, otherwise
look the period label up in the table, raising a `ValueError` that names the
allowed labels on a miss. -/
def annualization_factor (period : String) (annualization : Option ℚ) :
    Except PeriodError ℚ :=
  match annualization with
  | some a => Except.ok a
  | none =>
    match ANNUALIZATION_FACTORS.lookup period with
    | some f => Except.ok f
    | none => Except.error ⟨period, ANNUALIZATION_FACTORS.map Prod.fst⟩

/-! ## Cumulative-return transform -/

/-- stats.py lines 132-134: if any entry is NaN, replace the NaN entries of a
copy by 0 (otherwise the input is used as is; the two branches agree on
values). -/
def zeroFillNan (returns : List (Option ℚ)) : List (Option ℚ) :=
  if returns.any fun o => o.isNone then
    returns.map fun o => some (o.getD 0)
  else returns

/-- `np.cumsum` with running accumulator `acc`. -/
def cumsum (acc : ℚ) : List ℚ → List ℚ
  | [] => []
  | x :: xs => (acc + x) :: cumsum (acc + x) xs

/-- stats.py lines 88-142 (`cum_returns`).  NOTE: the source also computes
`df_cum = (returns + 1).cumprod(axis=0)` on line 136 but never uses it; what is
returned is `np.cumsum(returns) + 1` (line 137), minus 1 when
`starting_value == 0`, and unchanged (never multiplied by `starting_value`)
otherwise. -/
def cum_returns (returns : List (Option ℚ)) (starting_value : ℚ) : List ℚ :=
  if returns.length < 1 then []
  else if starting_value = 0 then
    ((cumsum 0 ((zeroFillNan returns).map fun o => o.getD 0)).map (· + 1)).map (· - 1)
  else
    (cumsum 0 ((zeroFillNan returns).map fun o => o.getD 0)).map (· + 1)

/-- stats.py lines 145-172 (`cum_returns_final`): NaN on empty input, else the
last element of `cum_returns` (the `[-1]` index always succeeds because
`cum_returns` preserves the length of a nonempty input). -/
def cum_returns_final (returns : List (Option ℚ)) (starting_value : ℚ) :
    Option ℚ :=
  if returns.length = 0 then none
  else (cum_returns returns starting_value).getLast?

/-- Modelled from the spec: the compounded total return the spec ascribes to a
constant series, `(1+c)^n - 1`. -/
def spec_compounded_final (c : ℚ) (n : ℕ) : ℚ := (1 + c) ^ n - 1

/-! ## Maximum drawdown -/

/-- Modelled from the spec: `utils.nanmin` (NaN-excluding minimum) is imported
from `empyrical/utils.py`, which is not under `src/`.  The lists it receives
here are NaN-free (`cum_returns` zero-fills NaN), so it is the plain minimum,
NaN only on empty input. -/
def nanmin : List ℚ → Option ℚ
  | [] => none
  | x :: xs => some (xs.foldl min x)

/-- `np.fmax.accumulate` continued from a previous running maximum `acc`. -/
def accumMax (acc : ℚ) : List ℚ → List ℚ
  | [] => []
  | x :: xs => max acc x :: accumMax (max acc x) xs

/-- `np.fmax.accumulate`: the running maximum, starting at the first element. -/
def runningMax : List ℚ → List ℚ
  | [] => []
  | x :: xs => x :: accumMax x xs

/-- stats.py lines 210-238 (`max_drawdown`): NaN on empty input, else prefix 1
to `cum_returns(returns, starting_value=100)`, take the running maximum, and
return the minimum of `(value - running_max) / running_max`. -/
def max_drawdown (returns : List (Option ℚ)) : Option ℚ :=
  if returns.length < 1 then none
  else
    nanmin (List.zipWith (fun c m => (c - m) / m)
      (1 :: cum_returns returns 100)
      (runningMax (1 :: cum_returns returns 100)))

/-- The per-position drawdown list, with the running maximum folded in. -/
def drawdowns (m : ℚ) : List ℚ → List ℚ
  | [] => []
  | c :: cs => (c - max m c) / max m c :: drawdowns (max m c) cs

/-- The levels produced by the cumulative-sum transform shifted by +1,
starting from accumulator `acc`. -/
def cumLevels (acc : ℚ) (vals : List ℚ) : List ℚ :=
  (cumsum acc vals).map (· + 1)

/-! ## Beta -/

/-- stats.py lines 28-44 (`_adjust_returns`) for a scalar adjustment: the
unchanged series when the adjustment is 0, elementwise subtraction otherwise
(NaN entries stay NaN). -/
def adjust_returns (r : List (Option ℚ)) (adj : ℚ) : List (Option ℚ) :=
  if adj = 0 then r else r.map fun o => o.map (· - adj)

/-- stats.py line 945: stack the two series and keep only the positions where
neither entry is NaN. -/
def jointValid (r f : List (Option ℚ)) : List (ℚ × ℚ) :=
  (List.zip r f).filterMap fun p =>
    match p with
    | (some x, some y) => some (x, y)
    | _ => none

/-- Arithmetic mean, as used inside `np.cov`. -/
def listMean (l : List ℚ) : ℚ := l.sum / l.length

/-- Population variance (`np.cov(..., ddof=0)` diagonal entry). -/
def popVar (l : List ℚ) : ℚ :=
  ((l.map fun x => (x - listMean l) ^ 2).sum) / l.length

/-- Population covariance (`np.cov(..., ddof=0)` off-diagonal entry). -/
def popCov (xs ys : List ℚ) : ℚ :=
  ((List.zipWith (fun x y => (x - listMean xs) * (y - listMean ys)) xs ys).sum) /
    xs.length

/-- stats.py lines 914-954 (`beta_aligned`): NaN when either series is shorter
than 2; risk-free-adjust the strategy returns, drop positions where either
entry is NaN; NaN when fewer than 2 joint-valid positions remain or the
population variance of the factor has magnitude below 1e-30; otherwise the
ratio of population covariance to factor variance. -/
def beta_aligned (returns factor_returns : List (Option ℚ)) (risk_free : ℚ) :
    Option ℚ :=
  if returns.length < 2 ∨ factor_returns.length < 2 then none
  else if (jointValid (adjust_returns returns risk_free) factor_returns).length < 2
    then none
  else if |popVar ((jointValid (adjust_returns returns risk_free) factor_returns).map
      Prod.snd)| < 1 / 10 ^ 30 then none
  else
    some (popCov
        ((jointValid (adjust_returns returns risk_free) factor_returns).map Prod.fst)
        ((jointValid (adjust_returns returns risk_free) factor_returns).map Prod.snd) /
      popVar ((jointValid (adjust_returns returns risk_free) factor_returns).map
        Prod.snd))

/-! ## Omega ratio -/

/-- Sum of the strictly positive entries (`sum(x[x > 0.0])`). -/
noncomputable def sum_gains : List ℝ → ℝ
  | [] => 0
  | x :: xs => (if x > 0 then x else 0) + sum_gains xs

/-- Sum of the strictly negative entries (`sum(x[x < 0.0])`). -/
noncomputable def sum_losses : List ℝ → ℝ
  | [] => 0
  | x :: xs => (if x < 0 then x else 0) + sum_losses xs

/-- stats.py lines 450-458: split the threshold-adjusted returns into gains
and losses and return their ratio, NaN when there are no losses. -/
noncomputable def omega_core (returns : List ℝ) (risk_free return_threshold : ℝ) :
    Option ℝ :=
  if -1 * sum_losses (returns.map fun r => r - risk_free - return_threshold) > 0 then
    some (sum_gains (returns.map fun r => r - risk_free - return_threshold) /
      (-1 * sum_losses (returns.map fun r => r - risk_free - return_threshold)))
  else none

/-- stats.py lines 407-458 (`omega_ratio`): NaN for fewer than 2 observations;
the threshold is `required_return` itself when `annualization == 1`; NaN when
`required_return ≤ -1` (and annualization ≠ 1); otherwise the threshold is
de-annualized as `(1+required_return)^(1/annualization) - 1`. -/
noncomputable def omega_ratio (returns : List ℝ)
    (risk_free required_return annualization : ℝ) : Option ℝ :=
  if returns.length < 2 then none
  else if annualization = 1 then omega_core returns risk_free required_return
  else if required_return ≤ -1 then none
  else omega_core returns risk_free
    ((1 + required_return) ^ ((1 : ℝ) / annualization) - 1)

/-! ## Excess Sharpe -/

/-- stats.py lines 28-44 (`_adjust_returns`) with a series adjustment:
elementwise subtraction, NaN wherever either entry is NaN. -/
def sub_series (r f : List (Option ℝ)) : List (Option ℝ) :=
  List.zipWith (fun a b =>
    match a, b with
    | some x, some y => some (x - y)
    | _, _ => none) r f

/-- The non-NaN entries of a series. -/
def valids (l : List (Option ℝ)) : List ℝ := l.filterMap id

/-- Modelled from the spec: `utils.nanmean` (NaN-excluding mean, NaN when no
valid entry remains) is imported from `empyrical/utils.py`, which is not under
`src/`. -/
noncomputable def nanmean_opt (l : List (Option ℝ)) : Option ℝ :=
  if (valids l).length = 0 then none
  else some ((valids l).sum / ((valids l).length : ℝ))

/-- Modelled from the spec: `utils.nanstd(·, ddof=1)` (NaN-excluding sample
standard deviation with one degree of freedom, NaN when fewer than 2 valid
entries remain — zero valid entries give a NaN mean, exactly one gives 0/0)
is imported from `empyrical/utils.py`, which is not under `src/`. -/
noncomputable def nanstd_ddof1 (l : List (Option ℝ)) : Option ℝ :=
  if (valids l).length < 2 then none
  else some (Real.sqrt
    ((((valids l).map fun x =>
        (x - (valids l).sum / ((valids l).length : ℝ)) ^ 2).sum) /
      (((valids l).length : ℝ) - 1)))

/-- stats.py lines 632-664 (`excess_sharpe`): NaN for fewer than 2
observations; 0.0 when the tracking error is NaN; NaN when it is exactly 0;
otherwise the mean active return divided by the tracking error. -/
noncomputable def excess_sharpe (returns factor_returns : List (Option ℝ)) :
    Option ℝ :=
  if returns.length < 2 then none
  else
    match nanstd_ddof1 (sub_series returns factor_returns) with
    | none => some 0
    | some te =>
      if te = 0 then none
      else (nanmean_opt (sub_series returns factor_returns)).map fun m => m / te

/-! ## Downside risk -/

/-- stats.py lines 621-622: zero out the strictly positive values, leaving
NaN untouched (NaN compares false against 0). -/
noncomputable def mask_pos_zero (o : Option ℝ) : Option ℝ :=
  o.map fun x => if x > 0 then 0 else x

/-- `_adjust_returns` over an ℝ series with a scalar adjustment. -/
noncomputable def adjust_returns_r (r : List (Option ℝ)) (adj : ℝ) :
    List (Option ℝ) :=
  if adj = 0 then r else r.map fun o => o.map (· - adj)

/-- stats.py lines 573-629 (`downside_risk`): NaN on empty input (before the
annualization factor is resolved); otherwise subtract the required return,
zero the positive residuals, square, take the NaN-excluding mean, and scale
the square root by the square root of the annualization factor. -/
noncomputable def downside_risk (returns : List (Option ℝ)) (required_return : ℝ)
    (period : String) (annualization : Option ℚ) : Except PeriodError (Option ℝ) :=
  if returns.length < 1 then Except.ok none
  else
    (annualization_factor period annualization).map fun ann_factor =>
      (nanmean_opt (((adjust_returns_r returns required_return).map mask_pos_zero).map
        fun o => o.map fun x => x ^ 2)).map
        fun m => Real.sqrt m * Real.sqrt (ann_factor : ℝ)

/-! ## Value at risk -/

/-- Insertion into an ascending list. -/
def insertAsc (x : ℚ) : List ℚ → List ℚ
  | [] => [x]
  | y :: ys => if x ≤ y then x :: y :: ys else y :: insertAsc x ys

/-- Ascending insertion sort, standing in for the sorted view that
`np.percentile` takes and for `np.partition` (only the multiset of the
smallest entries and the order statistics matter to the results modelled
here). -/
def sortAsc (l : List ℚ) : List ℚ := l.foldr insertAsc []

/-- `np.percentile(a, q)` with the default linear interpolation: on empty
input numpy raises `IndexError: cannot do a non-empty take from an empty
axes.`; otherwise, with `h = (n-1)*q/100`, it interpolates between the order
statistics at index `floor h` and the next index. -/
def percentile (xs : List ℚ) (q : ℚ) : Except String ℚ :=
  if xs.length = 0 then
    Except.error "cannot do a non-empty take from an empty axes."
  else
    Except.ok
      (let s := sortAsc xs
       let h : ℚ := ((xs.length : ℚ) - 1) * q / 100
       let lo : ℕ := (⌊h⌋).toNat
       let a := s.getD lo 0
       let b := s.getD (lo + 1) a
       a + (h - (lo : ℚ)) * (b - a))

/-- stats.py lines 1315-1332 (`value_at_risk`): the `100*cutoff`-th percentile
of the returns.  There is no empty-input guard, so numpy's percentile error
escapes on an empty series. -/
def value_at_risk (returns : List ℚ) (cutoff : ℚ) : Except String ℚ :=
  percentile returns (100 * cutoff)

/-- Python `int(...)`: truncation toward zero. -/
def truncQ (x : ℚ) : ℤ := if x < 0 then ⌈x⌉ else ⌊x⌋

/-- stats.py line 1360: `cutoff_index = int((len(returns) - 1) * cutoff)`. -/
def cvar_cutoff_index (n : ℕ) (cutoff : ℚ) : ℤ := truncQ (((n : ℚ) - 1) * cutoff)

/-- stats.py lines 1335-1361 (`conditional_value_at_risk`): the mean of all
entries at or below the cutoff index of the partition.  `np.partition(a, kth)`
raises `ValueError: kth(=k) out of bounds (n)` when `kth` is outside
`[-n, n)` — in particular always on an empty series (there is no empty-input
guard).  The mean over the partition prefix equals the mean of the
`cutoff_index+1` smallest entries, computed here over the sorted list. -/
def conditional_value_at_risk (returns : List ℚ) (cutoff : ℚ) :
    Except String ℚ :=
  if cvar_cutoff_index returns.length cutoff < -(returns.length : ℤ) ∨
      (returns.length : ℤ) ≤ cvar_cutoff_index returns.length cutoff then
    Except.error ("kth(=" ++ toString (cvar_cutoff_index returns.length cutoff) ++
      ") out of bounds (" ++ toString returns.length ++ ")")
  else
    Except.ok (((sortAsc returns).take
        ((cvar_cutoff_index returns.length cutoff).toNat + 1)).sum /
      (((cvar_cutoff_index returns.length cutoff).toNat : ℚ) + 1))

/-! ## Basic lemmas about the transform -/

theorem zeroFillNan_vals (r : List (Option ℚ)) :
    (zeroFillNan r).map (fun o => o.getD 0) = r.map (fun o => o.getD 0) := by
  unfold zeroFillNan
  split
  · simp
  · rfl

theorem zeroFillNan_length (r : List (Option ℚ)) :
    (zeroFillNan r).length = r.length := by
  unfold zeroFillNan
  split <;> simp

theorem cumsum_length (acc : ℚ) (l : List ℚ) :
    (cumsum acc l).length = l.length := by
  induction l generalizing acc with
  | nil => rfl
  | cons x xs ih => simp [cumsum, ih]

theorem cum_returns_length (r : List (Option ℚ)) (sv : ℚ) :
    (cum_returns r sv).length = r.length := by
  unfold cum_returns
  split
  · simp only [List.length_nil]; omega
  · split <;> simp [cumsum_length, zeroFillNan_length]

/-! ### Drawdown lemmas -/

theorem zipWith_accumMax (m : ℚ) (l : List ℚ) :
    List.zipWith (fun c mx => (c - mx) / mx) l (accumMax m l) = drawdowns m l := by
  induction l generalizing m with
  | nil => rfl
  | cons x xs ih => simp [accumMax, drawdowns, ih]

theorem cumLevels_cons (acc v : ℚ) (vs : List ℚ) :
    cumLevels acc (v :: vs) = (acc + v + 1) :: cumLevels (acc + v) vs := by
  simp [cumLevels, cumsum]

theorem cum_returns_of_sv_ne_zero (r : List (Option ℚ)) (sv : ℚ)
    (hr : r ≠ []) (hsv : sv ≠ 0) :
    cum_returns r sv = cumLevels 0 (r.map fun o => o.getD 0) := by
  unfold cum_returns
  rw [if_neg (by simpa [Nat.lt_one_iff, List.length_eq_zero] using hr),
    if_neg hsv, zeroFillNan_vals]
  rfl

theorem drawdowns_nonpos (l : List ℚ) :
    ∀ m : ℚ, 1 ≤ m → ∀ q ∈ drawdowns m l, q ≤ 0 := by
  induction l with
  | nil => intro m _ q hq; simp [drawdowns] at hq
  | cons c cs ih =>
    intro m hm q hq
    rw [drawdowns] at hq
    rcases List.mem_cons.mp hq with h | h
    · subst h
      apply div_nonpos_of_nonpos_of_nonneg
      · exact sub_nonpos.mpr (le_max_right m c)
      · exact le_trans (le_trans zero_le_one hm) (le_max_left m c)
    · exact ih (max m c) (le_trans hm (le_max_left m c)) q h

theorem drawdowns_cumLevels_zero (vals : List ℚ) :
    ∀ acc m : ℚ, (∀ v ∈ vals, 0 ≤ v) → m ≤ acc + 1 →
      ∀ q ∈ drawdowns m (cumLevels acc vals), q = 0 := by
  induction vals with
  | nil => intro acc m _ _ q hq; simp [drawdowns, cumLevels, cumsum] at hq
  | cons v vs ih =>
    intro acc m hvals hm q hq
    rw [cumLevels_cons, drawdowns] at hq
    have hv : 0 ≤ v := hvals v (List.mem_cons_self v vs)
    have hmc : m ≤ acc + v + 1 := by linarith
    rw [max_eq_right hmc] at hq
    rcases List.mem_cons.mp hq with h | h
    · subst h; simp
    · exact ih (acc + v) (acc + v + 1)
        (fun x hx => hvals x (List.mem_cons_of_mem v hx)) le_rfl q h

theorem foldl_min_nonpos (l : List ℚ) :
    ∀ x : ℚ, x ≤ 0 → (∀ q ∈ l, q ≤ 0) → l.foldl min x ≤ 0 := by
  induction l with
  | nil => intro x hx _; simpa using hx
  | cons y ys ih =>
    intro x hx h
    rw [List.foldl_cons]
    exact ih (min x y) (min_le_of_left_le hx)
      (fun q hq => h q (List.mem_cons_of_mem y hq))

theorem foldl_min_zero (l : List ℚ) (h : ∀ q ∈ l, q = 0) :
    l.foldl min 0 = 0 := by
  induction l with
  | nil => rfl
  | cons y ys ih =>
    rw [List.foldl_cons, h y (List.mem_cons_self y ys), min_self]
    exact ih fun q hq => h q (List.mem_cons_of_mem y hq)

theorem max_drawdown_eq (r : List (Option ℚ)) (hr : r ≠ []) :
    max_drawdown r =
      some ((drawdowns 1 (cumLevels 0 (r.map fun o => o.getD 0))).foldl min 0) := by
  unfold max_drawdown
  rw [if_neg (by simpa [Nat.lt_one_iff, List.length_eq_zero] using hr),
    cum_returns_of_sv_ne_zero r 100 hr (by norm_num)]
  rw [runningMax, List.zipWith_cons_cons, zipWith_accumMax]
  norm_num [nanmin]

/-! ## Helper lemmas for beta and the ratio metrics -/

theorem adjust_returns_length (r : List (Option ℚ)) (adj : ℚ) :
    (adjust_returns r adj).length = r.length := by
  unfold adjust_returns
  split <;> simp

theorem jointValid_length_le (r f : List (Option ℚ)) :
    (jointValid r f).length ≤ r.length := by
  calc (jointValid r f).length ≤ (List.zip r f).length :=
        List.length_filterMap_le _ _
    _ ≤ r.length := by rw [List.length_zip]; exact min_le_left _ _

theorem sum_losses_nonpos (l : List ℝ) : sum_losses l ≤ 0 := by
  induction l with
  | nil => simp [sum_losses]
  | cons x xs ih =>
    rw [sum_losses]
    have hx : (if x < 0 then x else 0) ≤ 0 := by
      split
      · linarith
      · exact le_refl 0
    linarith

theorem adjust_returns_r_zero (l : List (Option ℝ)) : adjust_returns_r l 0 = l :=
  if_pos rfl

/-! ## C1, C2 : the compounding bug -/

/-- C1: the spec claims `cum_returns` compounds `(1+r)` multiplicatively, so
that for a constant series `r_t = c` of length `n` the final cumulative return
is `(1+c)^n - 1`.  The code instead returns the cumulative sum: on
`returns = [1, 1]` it produces 2 where the claim (and the function's own
docstring formula `PI(1+r_i) - 1`) requires `(1+1)^2 - 1 = 3`. -/
theorem C1_cum_returns_sums_not_compounds :
    cum_returns_final [some 1, some 1] 0 = some 2 ∧
    spec_compounded_final 1 2 = 3 ∧
    cum_returns_final [some 1, some 1] 0 ≠ some (spec_compounded_final 1 2) := by
  norm_num [cum_returns_final, cum_returns, cumsum, zeroFillNan,
    spec_compounded_final, List.getLast?]

/-- C2: the spec claims the non-zero `starting_value` branch returns the
cumulative growth multiplied by `starting_value`.  The code returns
`cumsum(returns) + 1` unscaled: on `returns = [0]`, `starting_value = 100` it
gives `[1]`, not `[100]` (growth of one flat period times 100); and in the
`starting_value = 0` branch it returns the cumulative sum, not growth − 1:
on `[1, 1]` it gives `[1, 2]` whereas `(1+1)*(1+1) - 1 = 3`. -/
theorem C2_cum_returns_ignores_starting_value :
    cum_returns [some 0] 100 = [1] ∧ (1 : ℚ) ≠ (1 + 0) * 100 ∧
    cum_returns [some 1, some 1] 0 = [1, 2] ∧ (2 : ℚ) ≠ (1 + 1) * (1 + 1) - 1 := by
  norm_num [cum_returns, cumsum, zeroFillNan]

/-! ## C10 : length preservation and final-element agreement -/

/-- C10: `cum_returns` preserves length; for nonempty input its last element is
exactly `cum_returns_final`; on empty input `cum_returns` gives `[]` and
`cum_returns_final` gives NaN. -/
theorem C10_cum_returns_shape (r : List (Option ℚ)) (sv : ℚ) :
    (cum_returns r 0).length = r.length ∧
    (r ≠ [] → ∃ q, (cum_returns r 0).getLast? = some q ∧
      cum_returns_final r 0 = some q) ∧
    cum_returns [] sv = [] ∧ cum_returns_final [] sv = none := by
  refine ⟨cum_returns_length r 0, ?_, rfl, rfl⟩
  intro hr
  have hne : cum_returns r 0 ≠ [] := by
    intro h
    apply hr
    have := cum_returns_length r 0
    rw [h] at this
    exact List.length_eq_zero.mp this.symm
  obtain ⟨q, hq⟩ := Option.isSome_iff_exists.mp (List.getLast?_isSome.mpr hne)
  refine ⟨q, hq, ?_⟩
  unfold cum_returns_final
  rw [if_neg (by simpa [List.length_eq_zero] using hr)]
  exact hq

theorem C10_witness :
    ∃ q, (cum_returns [some (1 : ℚ)] 0).getLast? = some q ∧
      cum_returns_final [some (1 : ℚ)] 0 = some q :=
  (C10_cum_returns_shape [some (1 : ℚ)] 0).2.1 (by decide)

/-! ## C4 : sign of the maximum drawdown -/

/-- C4: for nonempty input `max_drawdown` is a number ≤ 0; for input whose
entries are all non-NaN and non-negative it is exactly 0; for empty input it
is NaN. -/
theorem C4_max_drawdown_sign (r : List (Option ℚ)) :
    (r ≠ [] → ∃ q, max_drawdown r = some q ∧ q ≤ 0) ∧
    (r ≠ [] → none ∉ r → (∀ o ∈ r, 0 ≤ o.getD 0) → max_drawdown r = some 0) ∧
    max_drawdown [] = none := by
  refine ⟨?_, ?_, rfl⟩
  · intro hr
    refine ⟨_, max_drawdown_eq r hr, ?_⟩
    exact foldl_min_nonpos _ 0 le_rfl (drawdowns_nonpos _ 1 le_rfl)
  · intro hr _ hnn
    rw [max_drawdown_eq r hr]
    congr 1
    apply foldl_min_zero
    apply drawdowns_cumLevels_zero _ 0 1 _ (by norm_num)
    intro v hv
    obtain ⟨o, ho, rfl⟩ := List.mem_map.mp hv
    exact hnn o ho

theorem C4_witness :
    (∃ q, max_drawdown [some (1 : ℚ), some (-1/2)] = some q ∧ q ≤ 0) ∧
    max_drawdown [some (1 : ℚ), some (1/2)] = some 0 :=
  ⟨(C4_max_drawdown_sign [some (1 : ℚ), some (-1/2)]).1 (by decide),
   (C4_max_drawdown_sign [some (1 : ℚ), some (1/2)]).2.1 (by decide)
     (by decide) (by norm_num)⟩

/-! ## C5 : beta as filtered population covariance over variance -/

/-- C5: over equal-length inputs, `beta_aligned` is NaN exactly when fewer
than 2 joint-valid (neither-NaN) observations remain or the factor's
population variance has magnitude below 1e-30, and otherwise equals the
population covariance of the risk-free-adjusted returns with the factor
returns divided by the population variance of the factor returns, all computed
over the joint-valid positions. -/
theorem C5_beta_aligned (r f : List (Option ℚ)) (rf : ℚ)
    (h : r.length = f.length) :
    (beta_aligned r f rf = none ↔
      (jointValid (adjust_returns r rf) f).length < 2 ∨
      |popVar ((jointValid (adjust_returns r rf) f).map Prod.snd)| < 1 / 10 ^ 30) ∧
    (¬ ((jointValid (adjust_returns r rf) f).length < 2 ∨
        |popVar ((jointValid (adjust_returns r rf) f).map Prod.snd)| < 1 / 10 ^ 30) →
      beta_aligned r f rf =
        some (popCov ((jointValid (adjust_returns r rf) f).map Prod.fst)
            ((jointValid (adjust_returns r rf) f).map Prod.snd) /
          popVar ((jointValid (adjust_returns r rf) f).map Prod.snd))) := by
  have hle : (jointValid (adjust_returns r rf) f).length ≤ r.length := by
    have := jointValid_length_le (adjust_returns r rf) f
    rwa [adjust_returns_length] at this
  unfold beta_aligned
  split
  · rename_i hshort
    have hj2 : (jointValid (adjust_returns r rf) f).length < 2 := by
      rcases hshort with hs | hs
      · omega
      · omega
    exact ⟨iff_of_true rfl (Or.inl hj2), fun hc => absurd (Or.inl hj2) hc⟩
  · split
    · rename_i hj2
      exact ⟨iff_of_true rfl (Or.inl hj2), fun hc => absurd (Or.inl hj2) hc⟩
    · split
      · rename_i hvar
        exact ⟨iff_of_true rfl (Or.inr hvar), fun hc => absurd (Or.inr hvar) hc⟩
      · rename_i hj2 hvar
        constructor
        · simp only [iff_false, Option.some_ne_none, false_iff]
          push_neg
          exact ⟨by omega, not_lt.mp hvar⟩
        · intro _; rfl

theorem C5_witness :
    beta_aligned [some (0 : ℚ), some 1] [some (0 : ℚ), some 1] 0 = some 1 := by
  have hadj : adjust_returns [some (0 : ℚ), some 1] 0 = [some (0 : ℚ), some 1] :=
    if_pos rfl
  have hj : jointValid (adjust_returns [some (0 : ℚ), some 1] 0)
      [some (0 : ℚ), some 1] = [((0 : ℚ), (0 : ℚ)), (1, 1)] := by
    rw [hadj]; rfl
  have hvar : popVar ((jointValid (adjust_returns [some (0 : ℚ), some 1] 0)
      [some (0 : ℚ), some 1]).map Prod.snd) = 1 / 4 := by
    rw [hj]
    norm_num [popVar, listMean]
  have hcov : popCov ((jointValid (adjust_returns [some (0 : ℚ), some 1] 0)
        [some (0 : ℚ), some 1]).map Prod.fst)
      ((jointValid (adjust_returns [some (0 : ℚ), some 1] 0)
        [some (0 : ℚ), some 1]).map Prod.snd) = 1 / 4 := by
    rw [hj]
    norm_num [popCov, listMean, List.zipWith]
  have h := (C5_beta_aligned [some (0 : ℚ), some 1] [some (0 : ℚ), some 1] 0
    rfl).2 (by
      push_neg
      refine ⟨?_, ?_⟩
      · rw [hj]; norm_num
      · rw [hvar, abs_of_pos] <;> norm_num)
  rw [h, hvar, hcov]
  norm_num

/-! ## C6 : omega-ratio NaN policy -/

/-- C6 (amended): for series of length at least 2 (with the default
annualization of 252 periods), `omega_ratio` is NaN whenever
`required_return ≤ -1`, NaN whenever the sum of adjusted returns below the
threshold is zero (no losses), and otherwise the sum of gains over the negated
sum of losses.  (The original claim, quantified over every returns sequence,
fails for series shorter than 2 — see the counterexample.) -/
theorem C6_omega_ratio (r : List ℝ) (rf rr : ℝ) (h : 2 ≤ r.length) :
    (rr ≤ -1 → omega_ratio r rf rr 252 = none) ∧
    (sum_losses (r.map fun x => x - rf - ((1 + rr) ^ ((1 : ℝ) / 252) - 1)) = 0 →
      omega_ratio r rf rr 252 = none) ∧
    (¬ rr ≤ -1 →
      sum_losses (r.map fun x => x - rf - ((1 + rr) ^ ((1 : ℝ) / 252) - 1)) ≠ 0 →
      omega_ratio r rf rr 252 =
        some (sum_gains (r.map fun x => x - rf - ((1 + rr) ^ ((1 : ℝ) / 252) - 1)) /
          (-1 * sum_losses (r.map fun x => x - rf - ((1 + rr) ^ ((1 : ℝ) / 252) - 1))))) := by
  have h252 : ¬ ((252 : ℝ) = 1) := by norm_num
  unfold omega_ratio
  rw [if_neg (by omega), if_neg h252]
  refine ⟨fun hrr => by rw [if_pos hrr], ?_, ?_⟩
  · intro hzero
    by_cases hrr : rr ≤ -1
    · rw [if_pos hrr]
    · rw [if_neg hrr]
      unfold omega_core
      rw [hzero]
      norm_num
  · intro hrr hnz
    rw [if_neg hrr]
    have hlt : sum_losses (r.map fun x => x - rf - ((1 + rr) ^ ((1 : ℝ) / 252) - 1)) < 0 :=
      lt_of_le_of_ne (sum_losses_nonpos _) hnz
    unfold omega_core
    rw [if_pos (by linarith)]

/-- C6 counterexample: on the length-1 series `[-1/2]` with
`required_return = 0` (and default annualization 252), the threshold is 0 and
the loss sum is -1/2 ≠ 0, so the claim as stated promises the gains/losses
ratio — but the code returns NaN because of its length-< 2 guard, which the
claim omits. -/
theorem C6_counterexample :
    omega_ratio [-(1/2 : ℝ)] 0 0 252 = none ∧
    ¬ ((0 : ℝ) ≤ -1) ∧
    sum_losses ([-(1/2 : ℝ)].map fun x => x - 0 - ((1 + 0) ^ ((1 : ℝ) / 252) - 1)) ≠ 0 := by
  refine ⟨?_, by norm_num, ?_⟩
  · unfold omega_ratio
    rw [if_pos (by simp)]
  · have hthr : ((1 : ℝ) + 0) ^ ((1 : ℝ) / 252) - 1 = 0 := by
      norm_num [Real.one_rpow]
    simp only [List.map_cons, List.map_nil, hthr, sum_losses]
    norm_num

theorem C6_witness : omega_ratio [-(3 : ℝ), 1/2] 0 (-2) 252 = none :=
  (C6_omega_ratio [-(3 : ℝ), 1/2] 0 (-2) (by simp)).1 (by norm_num)

/-! ## C7 : the NaN/zero tracking-error asymmetry -/

/-- C7: for pairs of length at least 2, `excess_sharpe` returns 0.0 when the
sample standard deviation of the active return is NaN, NaN when it is exactly
0, and otherwise the mean active return divided by that standard deviation. -/
theorem C7_excess_sharpe (r f : List (Option ℝ)) (h1 : r.length = f.length)
    (h2 : 2 ≤ r.length) :
    (nanstd_ddof1 (sub_series r f) = none → excess_sharpe r f = some 0) ∧
    (nanstd_ddof1 (sub_series r f) = some 0 → excess_sharpe r f = none) ∧
    (∀ s m, nanstd_ddof1 (sub_series r f) = some s → s ≠ 0 →
      nanmean_opt (sub_series r f) = some m →
      excess_sharpe r f = some (m / s)) := by
  unfold excess_sharpe
  rw [if_neg (by omega)]
  refine ⟨fun hn => by rw [hn], fun h0 => ?_, ?_⟩
  · rw [h0]
    dsimp only
    rw [if_pos rfl]
  · intro s m hs hsne hm
    rw [hs]
    dsimp only
    rw [if_neg hsne, hm]
    rfl

theorem C7_witness :
    excess_sharpe ([none, none] : List (Option ℝ)) [none, none] = some 0 :=
  (C7_excess_sharpe [none, none] [none, none] rfl (by decide)).1 rfl

/-! ## C8 : annualization-factor resolution -/

/-- C8: `annualization_factor` returns the override unchanged whenever one is
given, regardless of the period label; with no override it returns the fixed
table value for each of the four labels; and for any unrecognized label it
raises an error naming the offending label and the allowed labels. -/
theorem C8_annualization_factor :
    (∀ p a, annualization_factor p (some a) = Except.ok a) ∧
    annualization_factor "daily" none = Except.ok 252 ∧
    annualization_factor "weekly" none = Except.ok 52 ∧
    annualization_factor "monthly" none = Except.ok 12 ∧
    annualization_factor "yearly" none = Except.ok 1 ∧
    (∀ p, ANNUALIZATION_FACTORS.lookup p = none →
      annualization_factor p none =
        Except.error ⟨p, ["daily", "weekly", "monthly", "yearly"]⟩) := by
  refine ⟨fun p a => rfl, rfl, rfl, rfl, rfl, fun p hp => ?_⟩
  unfold annualization_factor
  rw [hp]
  rfl

theorem C8_witness :
    annualization_factor "hourly" none =
      Except.error ⟨"hourly", ["daily", "weekly", "monthly", "yearly"]⟩ :=
  C8_annualization_factor.2.2.2.2.2 "hourly" rfl

/-! ## C3 : raise-versus-NaN policy -/

/-- C3 counterexample: the claim says an empty series passed to
`value_at_risk` or `conditional_value_at_risk` yields NaN; in the code neither
function guards against empty input, so numpy raises instead (`np.percentile`
on an empty axis, `np.partition` with its kth index out of bounds). -/
theorem C3_counterexample :
    value_at_risk [] (1/20) =
      Except.error "cannot do a non-empty take from an empty axes." ∧
    conditional_value_at_risk [] (1/20) =
      Except.error "kth(=0) out of bounds (0)" := by
  constructor
  · rfl
  · have hk : cvar_cutoff_index 0 (1/20) = 0 := by
      norm_num [cvar_cutoff_index, truncQ]
    unfold conditional_value_at_risk
    rw [List.length_nil, hk]
    have hz : ((0 : ℕ) : ℤ) ≤ 0 := by norm_num
    rw [if_pos (Or.inr hz)]
    rfl

/-- C3 (amended): with an explicit annualization override nothing raises; with
none, `annualization_factor` raises exactly on an unrecognized label, naming
the allowed labels; degenerate numeric input (empty series, too few
observations) resolves to NaN in the metric functions — except an empty
series passed to `value_at_risk` or `conditional_value_at_risk`, which raises
(numpy percentile/partition errors, there being no empty-input guard). -/
theorem C3_error_policy :
    (∀ p a, annualization_factor p (some a) = Except.ok a) ∧
    (∀ p f, ANNUALIZATION_FACTORS.lookup p = some f →
      annualization_factor p none = Except.ok f) ∧
    (∀ p, ANNUALIZATION_FACTORS.lookup p = none →
      annualization_factor p none =
        Except.error ⟨p, ["daily", "weekly", "monthly", "yearly"]⟩) ∧
    (∀ sv, cum_returns_final [] sv = none) ∧
    max_drawdown [] = none ∧
    (∀ f rf, beta_aligned [] f rf = none) ∧
    (∀ rf rr ann, omega_ratio [] rf rr ann = none) ∧
    (∀ f, excess_sharpe [] f = none) ∧
    (∀ rq p a, downside_risk [] rq p a = Except.ok none) ∧
    value_at_risk [] (1/20) =
      Except.error "cannot do a non-empty take from an empty axes." ∧
    conditional_value_at_risk [] (1/20) =
      Except.error "kth(=0) out of bounds (0)" := by
  refine ⟨fun p a => rfl, fun p f hp => ?_, fun p hp => ?_, fun sv => rfl, rfl,
    fun f rf => ?_, fun rf rr ann => ?_, fun f => rfl, fun rq p a => rfl,
    rfl, ?_⟩
  · unfold annualization_factor
    rw [hp]
  · unfold annualization_factor
    rw [hp]
    rfl
  · unfold beta_aligned
    rw [if_pos (Or.inl (by simp))]
  · unfold omega_ratio
    rw [if_pos (by simp)]
  · have hk : cvar_cutoff_index 0 (1/20) = 0 := by
      norm_num [cvar_cutoff_index, truncQ]
    unfold conditional_value_at_risk
    rw [List.length_nil, hk]
    have hz : ((0 : ℕ) : ℤ) ≤ 0 := by norm_num
    rw [if_pos (Or.inr hz)]
    rfl

theorem C3_witness : annualization_factor "daily" none = Except.ok 252 :=
  C3_error_policy.2.1 "daily" 252 rfl

/-! ## C9 : downside risk ignores the size of gains -/

/-- C9: with `required_return = 0` (and the default daily periodicity),
replacing a strictly positive entry of a nonempty series by any other strictly
positive value leaves `downside_risk` unchanged: every non-negative adjusted
value is zeroed before the root-mean-square. -/
theorem C9_downside_risk (xs ys : List (Option ℝ)) (v w : ℝ)
    (hv : 0 < v) (hw : 0 < w) :
    downside_risk (xs ++ some v :: ys) 0 "daily" none =
      downside_risk (xs ++ some w :: ys) 0 "daily" none := by
  have hmaskv : mask_pos_zero (some v) = some 0 := by
    simp only [mask_pos_zero, Option.map_some']
    rw [if_pos hv]
  have hmaskw : mask_pos_zero (some w) = some 0 := by
    simp only [mask_pos_zero, Option.map_some']
    rw [if_pos hw]
  have hmask : (xs ++ some v :: ys).map mask_pos_zero =
      (xs ++ some w :: ys).map mask_pos_zero := by
    rw [List.map_append, List.map_append, List.map_cons, List.map_cons,
      hmaskv, hmaskw]
  unfold downside_risk
  rw [if_neg (by simp only [List.length_append, List.length_cons]; omega),
    if_neg (by simp only [List.length_append, List.length_cons]; omega),
    adjust_returns_r_zero, adjust_returns_r_zero, hmask]

theorem C9_witness :
    downside_risk ([some (-1/10)] ++ some (1/2) :: ([] : List (Option ℝ)))
        0 "daily" none =
      downside_risk ([some (-1/10)] ++ some 3 :: ([] : List (Option ℝ)))
        0 "daily" none :=
  C9_downside_risk [some (-1/10)] [] (1/2) 3 (by norm_num) (by norm_num)

end Empyrical
